import Mathlib

/-!
Shallow embedding of the `now-static-build` builder
(`src/packages/now-cura/src/index.ts` and its `compile` module).

External collaborators (filesystem, glob, the module-graph tracer, port
probing, the launcher generator) are modelled as explicit function-valued
parameters in environment records; every definition below is translated
from the TypeScript source.  JavaScript `Map`s become association lists,
`Buffer | string` content becomes `String`, and thrown exceptions become
`Except String`.
-/

namespace StaticBuild

/-- Association-list lookup, mirroring `Map.get` / JS object indexing:
the first binding for a key wins (keys are kept unique by `setA`). -/
def lookupA {α : Type} : List (String × α) → String → Option α
  | [], _ => none
  | (k, v) :: rest, key => if k = key then some v else lookupA rest key

/-- Association-list update, mirroring `Map.set` / JS object assignment:
replaces the first binding for the key in place, else appends. -/
def setA {α : Type} : List (String × α) → String → α → List (String × α)
  | [], key, v => [(key, v)]
  | (k, w) :: rest, key, v =>
    if k = key then (k, v) :: rest else (k, w) :: setA rest key v

/-- Association-list deletion, mirroring `Map.delete`. -/
def eraseA {α : Type} (l : List (String × α)) (key : String) : List (String × α) :=
  l.filter (fun kv => !(kv.1 == key))

/-- `Set.add` on a list representation: append if not already present. -/
def insertUnique (l : List String) (x : String) : List String :=
  if x ∈ l then l else l ++ [x]

/-- JS object spread `\x7b ...a, ...b \x7d`: entries of `b` override entries of `a`. -/
def mergeA {α : Type} (a b : List (String × α)) : List (String × α) :=
  b.foldl (fun m kv => setA m kv.1 kv.2) a

/-- Minimal model of `path.join` for the joins the builder performs. -/
def joinPath (a b : String) : String :=
  if a = "" then b else a ++ "/" ++ b

/-- Model of `path.basename`: the last nonempty `/`-separated component. -/
def basenameStr (p : String) : String :=
  (((p.splitOn "/").filter (fun s => s ≠ "")).getLast?).getD p

/-- Model of `mountpoint.replace(/^\.\/?/, '')`: strip one leading dot and
an optional following slash. -/
def stripDotSlash (s : String) : String :=
  match s.data with
  | '.' :: '/' :: rest => String.mk rest
  | '.' :: rest => String.mk rest
  | _ => s

/-- `package.json` manifest: only the `scripts` member is consulted by the
builder.  `none` models an absent (falsy) `scripts` object. -/
structure PackageJson where
  scripts : Option (List (String × String))
deriving DecidableEq

/-- The `string | string[]` union accepted for `includeFiles` /
`excludeFiles` in the compiler config. -/
inductive IncludeSpec
  | one (s : String)
  | many (l : List String)
deriving DecidableEq

/-- Builder `Config`: the members read by `index.ts` and `compile.ts`. -/
structure NowConfig where
  zeroConfig : Bool
  includeFiles : Option IncludeSpec := none
  excludeFiles : Option IncludeSpec := none

/-- JS truthiness test for `config.includeFiles` followed by the
string-to-singleton normalization at the top of `compile`
(an empty string is falsy and skips the include block; an empty array is
truthy and yields no patterns). -/
def normalizeIncludes : Option IncludeSpec → List String
  | none => []
  | some (.one s) => if s = "" then [] else [s]
  | some (.many l) => l

/-- Truthiness of `scripts[name]` in the manifest (a missing `scripts`
object contributes the empty object, and an empty-string command is
falsy, exactly as in `(pkg && pkg.scripts) || \x7b\x7d`). -/
def hasScript (pkg : PackageJson) (name : String) : Bool :=
  match lookupA (pkg.scripts.getD []) name with
  | some v => v ≠ ""
  | none => false

/-- `getCommand` from `index.ts` lines 87-106: resolve the script name to
run for a lifecycle phase `cmd`. -/
def getCommand (pkg : PackageJson) (cmd : String) (config : NowConfig) : String :=
  let nowCmd := "now-" ++ cmd
  if !config.zeroConfig && cmd == "dev" then nowCmd
  else if hasScript pkg nowCmd then nowCmd
  else if hasScript pkg cmd then cmd
  else if config.zeroConfig then cmd else nowCmd

/-- Spec-side resolver, following the words of section 4.3 of the spec
(rules in priority order; `strict` is the strict/zero-config flag and the
platform prefix is `now-`): rule 1, if not strict and the phase is `dev`,
the prefixed name; rule 2, a declared `now-<phase>` script; rule 3, a
declared `<phase>` script; rule 4, `<phase>` when strict else the
prefixed name. -/
def resolveScriptSpec (pkg : PackageJson) (phase : String) (strict : Bool) : String :=
  if ¬strict ∧ phase = "dev" then "now-" ++ phase
  else if hasScript pkg ("now-" ++ phase) then "now-" ++ phase
  else if hasScript pkg phase then phase
  else if strict then phase else "now-" ++ phase

/-- Observable state of a directory path, abstracting `existsSync`,
`statSync(..).isDirectory()` and `readdirSync(..).length`. -/
structure DirState where
  present : Bool
  isDirectory : Bool
  numEntries : Nat
deriving DecidableEq

/-- The mode-dependent remediation hint appended to every
`validateDistDir` failure message (lines 61-68 of `index.ts`). -/
def validateInfo (zeroConfig : Bool) (isDev : Bool) : String :=
  let hash := if isDev then "#local-development"
    else "#configuring-the-build-output-directory"
  let docsUrl :=
    "https://zeit.co/docs/v2/deployments/official-builders/static-build-now-static-build"
      ++ hash
  if zeroConfig then
    "\nMore details: https://zeit.co/docs/v2/platform/frequently-asked-questions#missing-public-directory"
  else
    "\nMake sure you configure the the correct distDir: " ++ docsUrl

/-- `validateDistDir` from `index.ts` lines 51-85: check existence, then
directory-ness, then non-emptiness of the build output directory,
throwing the first failing check as an error message. -/
def validateDistDir (dist : DirState) (distDir : String) (isDev : Bool)
    (config : NowConfig) : Except String Unit :=
  let distDirName := basenameStr distDir
  let info := validateInfo config.zeroConfig isDev
  if !dist.present then
    .error ("No output directory named \"" ++ distDirName ++ "\" found." ++ info)
  else if !dist.isDirectory then
    .error ("Build failed because distDir is not a directory: \"" ++ distDirName
      ++ "\"." ++ info)
  else if dist.numEntries == 0 then
    .error ("Build failed because distDir is empty: \"" ++ distDirName
      ++ "\"." ++ info)
  else
    .ok ()

/-- Result of a `checkForPort` run.  `ok n` means the probe with index `n`
(at simulated elapsed time `100 * n` ms, probes being instantaneous and the
loop sleeping a fixed 100 ms between consecutive probes) found the port
reachable; `timedOut port timeoutMs elapsed` is the thrown
`Detecting port ... timed out after ...` error, carrying the port and the
timeout duration named by the message together with the simulated elapsed
time at which the throw happened. -/
inductive PortCheck
  | ok (probes : Nat)
  | timedOut (port : Nat) (timeoutMs : Nat) (elapsed : Nat)
deriving DecidableEq

/-- The loop body of `checkForPort` (`index.ts` lines 38-49): probe, and
if unreachable either throw (when the elapsed time since the first probe
exceeds the timeout) or sleep 100 ms and retry.  `reachable m` is the
outcome of the `isPortReachable` probe with index `m`; the probe with
index `m` happens at elapsed time `100 * m`. -/
def checkForPortAux (reachable : Nat → Bool) (port timeout : Nat) (n : Nat) :
    PortCheck :=
  if reachable n then .ok n
  else if h : 100 * n > timeout then .timedOut port timeout (100 * n)
  else checkForPortAux reachable port timeout (n + 1)
termination_by timeout + 1 - 100 * n
decreasing_by omega

/-- `checkForPort(port, timeout)` with the reachability of the port over
probe indices supplied as a function. -/
def checkForPort (reachable : Nat → Bool) (port timeout : Nat) : PortCheck :=
  checkForPortAux reachable port timeout 0

/-- The simulated elapsed time at which `checkForPort` times out on a
never-reachable port: the first probe index `n` with `100 * n > timeout`
is `timeout / 100 + 1`. -/
def timeoutElapsed (timeout : Nat) : Nat :=
  100 * (timeout / 100 + 1)

/-- `DEV_SERVER_PORT_BIND_TIMEOUT = ms('5m')`. -/
def DEV_SERVER_PORT_BIND_TIMEOUT : Nat := 300000

/-- A port that is never reachable (used to instantiate theorems at a
concrete input). -/
def neverReachable : Nat → Bool := fun _ => false

/-- A port that becomes reachable at probe index 2 (used to instantiate
theorems at a concrete input). -/
def reachableAtTwo : Nat → Bool := fun n => n == 2

/-- Outcome of reading one path from the real filesystem
(`readFileSync` followed by `lstatSync`): contents and mode on success,
or the `ENOENT` / `EISDIR` error codes, or any other I/O error. -/
inductive ReadOutcome
  | found (data : String) (mode : Nat)
  | enoent
  | eisdir
  | ioError (msg : String)
deriving DecidableEq

/-- The `File` union of `@now/build-utils` as used here: an in-memory
`FileBlob` (with the optional `mode` captured by the tracer) or an
on-disk `FileFsRef`. -/
inductive File
  | blob (data : String) (mode : Option Nat)
  | fsRef (fsPath : String)
deriving DecidableEq

/-- File maps (`Files`): relative path keyed association lists. -/
abbrev Files := List (String × File)

/-- The two tracer caches of `compile.ts`: `sourceCache` maps a relative
path to raw content (`some data`) or to the confirmed-absent marker
`none` (the `null` stored by the read hook), and `fsCache` maps a
relative path to a wrapped `File`. -/
structure TraceState where
  sourceCache : List (String × Option String)
  fsCache : Files
deriving DecidableEq

/-- The `readFile` hook handed to `nodeFileTrace` (`compile.ts` lines
64-84).  Returns the produced content (`none` models returning `null`,
the "not found" marker), the updated caches, and the number of real
filesystem read attempts performed (0 on a cache hit); any I/O error
other than `ENOENT` / `EISDIR` propagates as `Except.error`. -/
def readFileHook (fs : String → ReadOutcome) (rel : String → String)
    (st : TraceState) (fsPath : String) :
    Except String (Option String × TraceState × Nat) :=
  let relPath := rel fsPath
  match lookupA st.sourceCache relPath with
  | some (some data) => .ok (some data, st, 0)
  | some none => .ok (none, st, 0)
  | none =>
    match fs fsPath with
    | .found data mode =>
      .ok (some data,
        ⟨setA st.sourceCache relPath (some data),
         setA st.fsCache relPath (.blob data (some mode))⟩, 1)
    | .enoent => .ok (none, ⟨setA st.sourceCache relPath none, st.fsCache⟩, 1)
    | .eisdir => .ok (none, ⟨setA st.sourceCache relPath none, st.fsCache⟩, 1)
    | .ioError msg => .error msg

/-- Environment of external collaborators consumed by `compile`:
the filesystem, the `path.relative(workPath, ·)` and
`path.resolve(workPath, ·)` utilities, the glob resolver (pattern to
matched relative paths), and the black-box module-graph tracer, split
into the sequence of paths it probes through the read hook and the
`fileList` it returns for a given entry set. -/
structure CompileEnv where
  fs : String → ReadOutcome
  rel : String → String
  res : String → String
  globF : String → List String
  probes : List String
  traceOut : List String → List String

/-- The per-file body of the include loop (`compile.ts` lines 41-48):
register the glob result as a `FileFsRef` in `fsCache`, read its bytes
into `sourceCache`, and add its resolved path to the entry set.  A file
that cannot be streamed rejects the whole compile. -/
def runIncludeFiles (env : CompileEnv) :
    List String → TraceState → List String →
    Except String (TraceState × List String)
  | [], st, inputs => .ok (st, inputs)
  | f :: rest, st, inputs =>
    match env.fs (env.res f) with
    | .found data _ =>
      runIncludeFiles env rest
        ⟨setA st.sourceCache f (some data),
         setA st.fsCache f (.fsRef (env.res f))⟩
        (insertUnique inputs (env.res f))
    | _ => .error "failed to read an included file"

/-- The include-pattern loop (`compile.ts` lines 38-50). -/
def runPatterns (env : CompileEnv) :
    List String → TraceState → List String →
    Except String (TraceState × List String)
  | [], st, inputs => .ok (st, inputs)
  | p :: ps, st, inputs =>
    match runIncludeFiles env (env.globF p) st inputs with
    | .ok (st2, in2) => runPatterns env ps st2 in2
    | .error e => .error e

/-- The module-graph walk viewed through its cache effects: the hook is
invoked on each probed path in order, threading the caches; a hook error
rejects the walk (`nodeFileTrace` fails). -/
def runProbes (fs : String → ReadOutcome) (rel : String → String) :
    TraceState → List String → Except String TraceState
  | st, [] => .ok st
  | st, p :: ps =>
    match readFileHook fs rel st p with
    | .ok (_, st2, _) => runProbes fs rel st2 ps
    | .error e => .error e

/-- The output-assembly loop (`compile.ts` lines 87-96): for each traced
path reuse the cached `File`, else read it fresh from disk (bytes and
mode) as a `FileBlob`; a fresh read of a missing path throws. -/
def prepareFilesLoop (env : CompileEnv) (st : TraceState) :
    Files → List String → Except String Files
  | acc, [] => .ok acc
  | acc, p :: ps =>
    match lookupA st.fsCache p with
    | some entry => prepareFilesLoop env st (setA acc p entry) ps
    | none =>
      match env.fs (env.res p) with
      | .found data mode =>
        prepareFilesLoop env st (setA acc p (.blob data (some mode))) ps
      | _ => .error "failed to read a traced file"

/-- Full instrumented result of one `compile` run: the caches after the
include phase, the entry set handed to the tracer, the caches after the
walk, the returned `fileList`, the assembled `preparedFiles`, and the
`watch` list (which the source returns as `fileList`). -/
structure CompileTrace where
  includeState : TraceState
  entries : List String
  afterProbes : TraceState
  fileList : List String
  preparedFiles : Files
  watch : List String
deriving DecidableEq

/-- `compile` from `compile.ts`, instrumented with its intermediate
states.  The entry set is seeded with the entrypoint path, extended by
the include patterns, handed to the tracer, and the traced `fileList` is
assembled into `preparedFiles`. -/
def compileFull (env : CompileEnv) (entrypointPath : String)
    (config : NowConfig) : Except String CompileTrace :=
  match runPatterns env (normalizeIncludes config.includeFiles) ⟨[], []⟩
      [entrypointPath] with
  | .error e => .error e
  | .ok (st1, inputs) =>
    match runProbes env.fs env.rel st1 env.probes with
    | .error e => .error e
    | .ok st2 =>
      match prepareFilesLoop env st2 [] (env.traceOut inputs) with
      | .error e => .error e
      | .ok files =>
        .ok ⟨st1, inputs, st2, env.traceOut inputs, files, env.traceOut inputs⟩

/-- `compile` as the source returns it: `preparedFiles` and `watch`. -/
def compile (env : CompileEnv) (entrypointPath : String) (config : NowConfig) :
    Except String (Files × List String) :=
  match compileFull env entrypointPath config with
  | .error e => .error e
  | .ok t => .ok (t.preparedFiles, t.watch)

/-- The content the filesystem holds for the resolved form of relative
path `f` (`some` of the bytes, or `none` when the read does not
succeed). -/
def fsData (env : CompileEnv) (f : String) : Option String :=
  match env.fs (env.res f) with
  | .found data _ => some data
  | _ => none

/-- A concrete four-path filesystem used to instantiate theorems:
`a.js` exists, `dir` is a directory, `bad` raises a non-not-found I/O
error, everything else is absent. -/
def fsW : String → ReadOutcome := fun p =>
  if p = "a.js" then .found "A" 420
  else if p = "dir" then .eisdir
  else if p = "bad" then .ioError "EACCES"
  else .enoent

/-- A concrete `path.relative(workPath, ·)` where probed paths are
already workPath-relative. -/
def relW : String → String := fun s => s

/-- The state an include pattern leaves behind for a matched file `f`:
a `FileFsRef` registered in the filesystem cache, the raw content cached
in the source cache, and the content present on disk. -/
def IncludedOK (env : CompileEnv) (f : String) (st : TraceState) : Prop :=
  lookupA st.fsCache f = some (.fsRef (env.res f)) ∧
  lookupA st.sourceCache f = some (fsData env f) ∧
  (fsData env f).isSome

/-- A concrete filesystem on which every path exists (content derived
from the path). -/
def fsAll : String → ReadOutcome := fun p => .found ("c-" ++ p) 420

/-- A concrete glob resolver matching one asset file under one pattern. -/
def globW : String → List String :=
  fun pat => if pat = "assets/**" then ["assets/a.txt"] else []

/-- A concrete tracer whose closure is exactly its entry set. -/
def traceIdW : List String → List String := fun l => l

/-- A concrete compile environment for instantiating theorems. -/
def cenvW : CompileEnv := ⟨fsAll, relW, relW, globW, [], traceIdW⟩

/-- A concrete config with one include pattern not referenced by the
entrypoint module graph. -/
def configW : NowConfig := ⟨false, some (.many ["assets/**"]), none⟩

/-- The instrumented result of `compileFull cenvW "index.js" configW`. -/
def tW : CompileTrace :=
  ⟨⟨[("assets/a.txt", some "c-assets/a.txt")],
    [("assets/a.txt", File.fsRef "assets/a.txt")]⟩,
   ["index.js", "assets/a.txt"],
   ⟨[("assets/a.txt", some "c-assets/a.txt")],
    [("assets/a.txt", File.fsRef "assets/a.txt")]⟩,
   ["index.js", "assets/a.txt"],
   [("index.js", File.blob "c-index.js" (some 420)),
    ("assets/a.txt", File.fsRef "assets/a.txt")],
   ["index.js", "assets/a.txt"]⟩

/-- A routing rule as emitted by the builder: source pattern,
destination, response headers, the `continue` flag (here
`continueFlag`), or a `handle` phase marker. -/
structure Route where
  src : Option String := none
  dest : Option String := none
  headers : Option (List (String × String)) := none
  continueFlag : Option Bool := none
  handle : Option String := none
deriving DecidableEq

/-- `meta` as consulted by `build` (`meta = \x7b\x7d` defaults `isDev` to
falsy). -/
structure MetaInfo where
  isDev : Bool
deriving DecidableEq

/-- `getDevRoute` (`index.ts` lines 125-136): prefix the source with the
mount-relative base, point the destination at the bound dev port, and
forward the response headers of the base rule when present. -/
def getDevRoute (srcBase : String) (devPort : Nat) (route : Route) : Route :=
  let basic : Route :=
    { src := some (srcBase ++ route.src.getD ""),
      dest := some ("http://localhost:" ++ toString devPort ++ route.dest.getD "") }
  if route.headers.isSome then { basic with headers := route.headers } else basic

/-- The base rule handed to `getDevRoute` by the dev branch of `build`
(`index.ts` lines 212-217). -/
def baseDevRoute : Route := { src := some "/(.*)", dest := some "/$1" }

/-- The fixed static-mode routing set (`index.ts` lines 243-267). -/
def staticBuildRoutes : List Route :=
  [{ src := some "/static/(.*)",
     headers := some [("cache-control", "s-maxage=31536000, immutable")],
     continueFlag := some true },
   { src := some "/service-worker.js",
     headers := some [("cache-control", "s-maxage=0")],
     continueFlag := some true },
   { src := some "/sockjs-node/(.*)", dest := some "/sockjs-node/$1" },
   { handle := some "filesystem" },
   { src := some "/(.*)", dest := some "/render.js" }]

/-- Observable ordered events of the dev-server branch: the port
reservation in the registry and the child-process spawn (carrying the
injected `PORT`); list order is temporal order. -/
inductive DevEvent
  | reservePort (entrypoint : String) (port : Nat)
  | spawnChild (pid : Nat) (portEnv : Nat)
deriving DecidableEq

/-- Result of the dev-server branch: the bound port, the registry and
child set afterwards, the ordered events, and whether a child was
spawned. -/
structure DevResult where
  port : Nat
  registry : List (String × Nat)
  children : List Nat
  events : List DevEvent
  spawned : Bool
deriving DecidableEq

/-- The generated lambda (`createLambda` of build-utils, an external
packager): the merged file map, the handler name and the runtime. -/
structure Lambda where
  files : Files
  handler : String
  runtime : String
deriving DecidableEq

/-- `createLambda(\x7bfiles, handler, runtime\x7d)`. -/
def createLambda (files : Files) (handler runtime : String) : Lambda :=
  ⟨files, handler, runtime⟩

/-- A value of the output file map: a plain `File` from the static glob,
or the packaged lambda stored at `render.js`. -/
inductive OutputFile
  | file (f : File)
  | lam (l : Lambda)
deriving DecidableEq

/-- The config record passed to `makeNowLauncher`. -/
structure LauncherConfig where
  entrypointPath : String
  bridgePath : String
  helpersPath : String
  sourcemapSupportPath : String
  shouldAddHelpers : Bool
deriving DecidableEq

/-- `LAUNCHER_FILENAME`. -/
def LAUNCHER_FILENAME : String := "___now_launcher"

/-- `BRIDGE_FILENAME`. -/
def BRIDGE_FILENAME : String := "___now_bridge"

/-- `HELPERS_FILENAME`. -/
def HELPERS_FILENAME : String := "___now_helpers"

/-- `SOURCEMAP_SUPPORT_FILENAME`. -/
def SOURCEMAP_SUPPORT_FILENAME : String := "__sourcemap_support"

/-- Environment of one `build` invocation: the inputs of `BuildOptions`,
the manifest parsed from the entrypoint, the process-wide dev registry
and child set, the external collaborators (fresh port, child pid, port
reachability, output-directory state, static glob output, resolved
runtime, `__dirname`, the launcher generator) and the compile
environment. -/
structure BuildEnv where
  entrypoint : String
  workPath : String
  mountpoint : String
  pkg : PackageJson
  config : NowConfig
  meta : MetaInfo
  registry : List (String × Nat)
  children : List Nat
  freshPort : Nat
  childPid : Nat
  reachable : Nat → Bool
  dist : DirState
  globOut : Files
  runtimeId : String
  dirnameStr : String
  makeLauncher : LauncherConfig → String
  cenv : CompileEnv

/-- The dev-server branch of `build` (`index.ts` lines 168-201): reuse a
registered port, or reserve a fresh port in the registry, spawn the
child, add it to the child set and await the port; a bind timeout is
rethrown as the failed-to-detect error. -/
def ensureDevServer (env : BuildEnv) : Except String DevResult :=
  match lookupA env.registry env.entrypoint with
  | some devPort => .ok ⟨devPort, env.registry, env.children, [], false⟩
  | none =>
    let devPort := env.freshPort
    let registry2 := setA env.registry env.entrypoint devPort
    let children2 := env.children ++ [env.childPid]
    let events := [DevEvent.reservePort env.entrypoint devPort,
      DevEvent.spawnChild env.childPid devPort]
    match checkForPort env.reachable devPort DEV_SERVER_PORT_BIND_TIMEOUT with
    | .ok _ => .ok ⟨devPort, registry2, children2, events, true⟩
    | .timedOut _ _ _ =>
      .error ("Failed to detect a server running on port "
        ++ toString devPort
        ++ ".\nDetails: https://err.sh/zeit/now/now-static-build-failed-to-detect-a-server")

/-- The exit handler attached to a spawned dev child
(`child.on('exit', ...)`, `index.ts` line 186): delete the registry entry
of the owning entrypoint. -/
def devExitHandler (entrypoint : String) (registry : List (String × Nat)) :
    List (String × Nat) :=
  eraseA registry entrypoint

/-- `buildPath = path.join(workPath, path.dirname(entrypoint), 'build')`. -/
def buildPathOf (env : BuildEnv) : String :=
  joinPath (joinPath env.workPath env.mountpoint) "build"

/-- `distPath = path.join(buildPath, 'web')`. -/
def distPathOf (env : BuildEnv) : String :=
  joinPath (buildPathOf env) "web"

/-- `renderPath = path.join(buildPath, 'node', 'index.js')`. -/
def renderPathOf (env : BuildEnv) : String :=
  joinPath (joinPath (buildPathOf env) "node") "index.js"

/-- The generated companion files (`index.ts` lines 280-296): the
launcher blob plus the bridge and helpers `FileFsRef`s under the three
reserved names. -/
def launcherFilesDef (env : BuildEnv) : Files :=
  [(LAUNCHER_FILENAME ++ ".js",
    .blob (env.makeLauncher
      ⟨"./build/node/index.js", "./" ++ BRIDGE_FILENAME,
       "./" ++ HELPERS_FILENAME, "./" ++ SOURCEMAP_SUPPORT_FILENAME, true⟩)
      none),
   (BRIDGE_FILENAME ++ ".js", .fsRef (joinPath env.dirnameStr "bridge.js")),
   (HELPERS_FILENAME ++ ".js", .fsRef (joinPath env.dirnameStr "helpers.js"))]

/-- The result of one `build` invocation, together with the process-wide
state it leaves behind and the dev events it performed. -/
structure BuildResult where
  routes : List Route
  watch : List String
  output : List (String × OutputFile)
  distPath : String
  registryAfter : List (String × Nat)
  childrenAfter : List Nat
  devEvents : List DevEvent

/-- `srcBase` as computed by the dev branch (`index.ts` lines 203-207):
the mountpoint with its leading `./` stripped, prefixed with `/` when
nonempty. -/
def srcBaseOf (mountpoint : String) : String :=
  if (stripDotSlash mountpoint).length > 0 then "/" ++ stripDotSlash mountpoint
  else stripDotSlash mountpoint

/-- The branch of `build` (`index.ts` lines 168-270) producing the
routes, the branch output map, and the dev-registry/child-set/event
effects: the dev branch (requiring `meta.isDev` and a truthy `start`
script) delegates to the dev-server supervisor and emits the single
proxy route; the build branch runs the resolved build script (a missing
script throws), validates the output directory, and emits the static
routes plus the globbed output. -/
def buildBranch (env : BuildEnv) :
    Except String (List Route × List (String × OutputFile)
      × List (String × Nat) × List Nat × List DevEvent) :=
  if env.meta.isDev && hasScript env.pkg "start" then
    match ensureDevServer env with
    | .error e => .error e
    | .ok dev =>
      .ok ([getDevRoute (srcBaseOf env.mountpoint) dev.port baseDevRoute], [],
        dev.registry, dev.children, dev.events)
  else
    if !(hasScript env.pkg (getCommand env.pkg "build" env.config)) then
      .error ("Missing required \"" ++ getCommand env.pkg "build" env.config
        ++ "\" script in \"" ++ env.entrypoint ++ "\"")
    else
      match validateDistDir env.dist (distPathOf env) env.meta.isDev
          env.config with
      | .error e => .error e
      | .ok _ =>
        .ok (staticBuildRoutes,
          env.globOut.map (fun kv => (kv.1, OutputFile.file kv.2)),
          env.registry, env.children, [])

/-- `build` from `index.ts` lines 138-315: run the branch, then trace
the render entrypoint with `compile`, package the traced files merged
with the companion files into a lambda (companions spread last), and
store it at `render.js` in the output map. -/
def buildRun (env : BuildEnv) : Except String BuildResult :=
  match buildBranch env with
  | .error e => .error e
  | .ok (routes, output, reg, ch, ev) =>
    match compile env.cenv (renderPathOf env) env.config with
    | .error e => .error e
    | .ok (preparedFiles, watch) =>
      .ok ⟨routes,
        watch ++ [joinPath (stripDotSlash env.mountpoint) "**/*"],
        setA output "render.js"
          (.lam (createLambda (mergeA preparedFiles (launcherFilesDef env))
            (LAUNCHER_FILENAME ++ ".launcher")
            (if env.meta.isDev then "nodejs" else env.runtimeId))),
        distPathOf env, reg, ch, ev⟩

/-- The routes of a successful `build`, `none` on failure. -/
def buildRoutesOf (env : BuildEnv) : Option (List Route) :=
  match buildRun env with
  | .ok r => some r.routes
  | .error _ => none

/-- A concrete launcher generator. -/
def mkLauncherW : LauncherConfig → String := fun _ => "launcher-src"

/-- A port that is always reachable. -/
def alwaysReachable : Nat → Bool := fun _ => true

/-- Concrete build environment: dev mode (`meta.isDev = true`) but the
manifest declares no `start` script — only a `build` script — with a
valid populated output directory. -/
def envC4 : BuildEnv :=
  ⟨"app/package.json", "W", "app", ⟨some [("build", "webpack")]⟩,
   ⟨false, none, none⟩, ⟨true⟩, [], [], 3000, 42, neverReachable,
   ⟨true, true, 2⟩, [("app/index.html", .fsRef "W/app/build/web/index.html")],
   "nodejs10.x", "D", mkLauncherW, cenvW⟩

/-- Concrete build environment: non-dev, manifest with no scripts at
all, zero-config off. -/
def envC8 : BuildEnv :=
  ⟨"app/package.json", "W", "app", ⟨some []⟩,
   ⟨false, none, none⟩, ⟨false⟩, [], [], 3000, 42, neverReachable,
   ⟨true, true, 2⟩, [], "nodejs10.x", "D", mkLauncherW, cenvW⟩

/-- Concrete build environment: non-dev, `build` script declared, valid
output directory. -/
def envC9 : BuildEnv :=
  ⟨"app/package.json", "W", "app", ⟨some [("build", "webpack")]⟩,
   ⟨false, none, none⟩, ⟨false⟩, [], [], 3000, 42, neverReachable,
   ⟨true, true, 2⟩, [("app/index.html", .fsRef "W/app/build/web/index.html")],
   "nodejs10.x", "D", mkLauncherW, cenvW⟩

/-- Concrete build environment: dev mode with a `start` script and a
registry that already holds port 3100 for the entrypoint. -/
def envC10 : BuildEnv :=
  ⟨"app/package.json", "W", "app", ⟨some [("start", "node server.js")]⟩,
   ⟨false, none, none⟩, ⟨true⟩, [("app/package.json", 3100)], [17], 3000, 42,
   neverReachable, ⟨true, true, 2⟩, [], "nodejs10.x", "D", mkLauncherW, cenvW⟩

/-- Concrete build environment: dev mode with a `start` script, empty
registry, child pid 7, fresh port 3200, instantly reachable port. -/
def envC7 : BuildEnv :=
  ⟨"app/package.json", "W", "app", ⟨some [("start", "node server.js")]⟩,
   ⟨false, none, none⟩, ⟨true⟩, [], [17], 3200, 7, alwaysReachable,
   ⟨true, true, 2⟩, [], "nodejs10.x", "D", mkLauncherW, cenvW⟩

/-- The traced closure of `envC10` (one blob for the render entrypoint). -/
def c10pf : Files :=
  [("W/app/build/node/index.js",
    File.blob "c-W/app/build/node/index.js" (some 420))]

/-- The watch list of `envC10`. -/
def c10w : List String := ["W/app/build/node/index.js"]

/-- The lambda packaged by `buildRun envC10`. -/
def c10lambda : Lambda :=
  createLambda (mergeA c10pf (launcherFilesDef envC10))
    (LAUNCHER_FILENAME ++ ".launcher") "nodejs"

/-- The full result of `buildRun envC10`. -/
def c10res : BuildResult :=
  ⟨[getDevRoute "/app" 3100 baseDevRoute],
   ["W/app/build/node/index.js", "app/**/*"],
   [("render.js", .lam c10lambda)],
   "W/app/build/web", [("app/package.json", 3100)], [17], []⟩

/-- Whether an exceptional computation succeeded. -/
def exceptIsOk {ε α : Type} : Except ε α → Bool
  | .ok _ => true
  | .error _ => false

/-- The lambda packaged by `buildRun envC9` (non-dev, so the resolved
runtime is used). -/
def c9lambda : Lambda :=
  createLambda (mergeA c10pf (launcherFilesDef envC9))
    (LAUNCHER_FILENAME ++ ".launcher") "nodejs10.x"

/-- The full result of `buildRun envC9`. -/
def c9res : BuildResult :=
  ⟨staticBuildRoutes,
   ["W/app/build/node/index.js", "app/**/*"],
   [("app/index.html", .file (.fsRef "W/app/build/web/index.html")),
    ("render.js", .lam c9lambda)],
   "W/app/build/web", [], [], []⟩

end StaticBuild

namespace StaticBuild

/-- Claim C3: script resolution (`getCommand`) is total, deterministic and
side-effect-free (it is a pure Lean function) and for every manifest,
phase and strict flag it returns exactly the name given by the section
4.3 priority order: when not in zero-config mode and the phase is `dev`
it returns `now-dev` regardless of the manifest; otherwise `now-<phase>`
if declared, else `<phase>` if declared, else `<phase>` in zero-config
mode and `now-<phase>` otherwise. -/
theorem getCommand_matches_spec (pkg : PackageJson) (phase : String)
    (config : NowConfig) :
    getCommand pkg phase config = resolveScriptSpec pkg phase config.zeroConfig := by
  unfold getCommand resolveScriptSpec
  cases h : config.zeroConfig <;> by_cases hd : phase = "dev" <;>
    simp [hd]

/-- Claim C5: output-directory validation short-circuits at the first
failing check in the order exists, is-a-directory, non-empty.  A missing
path gives the not-found error whatever its entry count, an existing
non-directory gives the not-a-directory error, an existing empty
directory gives the empty-output error, and all checks passing gives
success; every message embeds the base name of the directory and the
mode hint, and the zero-config hint differs from the custom-build
hint. -/
theorem validateDistDir_contract :
    (∀ (dist : DirState) (distDir : String) (isDev : Bool) (config : NowConfig),
      (dist.present = false →
        validateDistDir dist distDir isDev config =
          .error ("No output directory named \"" ++ basenameStr distDir
            ++ "\" found." ++ validateInfo config.zeroConfig isDev)) ∧
      (dist.present = true → dist.isDirectory = false →
        validateDistDir dist distDir isDev config =
          .error ("Build failed because distDir is not a directory: \""
            ++ basenameStr distDir ++ "\"."
            ++ validateInfo config.zeroConfig isDev)) ∧
      (dist.present = true → dist.isDirectory = true → dist.numEntries = 0 →
        validateDistDir dist distDir isDev config =
          .error ("Build failed because distDir is empty: \""
            ++ basenameStr distDir ++ "\"."
            ++ validateInfo config.zeroConfig isDev)) ∧
      (dist.present = true → dist.isDirectory = true → dist.numEntries ≠ 0 →
        validateDistDir dist distDir isDev config = .ok ())) ∧
    (∀ isDev : Bool, validateInfo true isDev ≠ validateInfo false isDev) := by
  constructor
  · intro dist distDir isDev config
    refine ⟨?_, ?_, ?_, ?_⟩ <;> intros <;>
      simp_all [validateDistDir]
  · intro isDev
    cases isDev <;> decide

/-- Witness for C5 at concrete inputs: a missing (and also empty)
directory, a non-directory, an empty directory and a populated directory
under `./build/web`, plus the concrete fact that the empty-output error
differs from the not-found error. -/
theorem validateDistDir_contract_witness :
    validateDistDir ⟨false, false, 0⟩ "./build/web" false ⟨true, none, none⟩ =
      .error ("No output directory named \"" ++ basenameStr "./build/web"
        ++ "\" found." ++ validateInfo true false) ∧
    validateDistDir ⟨true, false, 3⟩ "./build/web" false ⟨false, none, none⟩ =
      .error ("Build failed because distDir is not a directory: \""
        ++ basenameStr "./build/web" ++ "\"." ++ validateInfo false false) ∧
    validateDistDir ⟨true, true, 0⟩ "./build/web" false ⟨false, none, none⟩ =
      .error ("Build failed because distDir is empty: \""
        ++ basenameStr "./build/web" ++ "\"." ++ validateInfo false false) ∧
    validateDistDir ⟨true, true, 3⟩ "./build/web" false ⟨false, none, none⟩ =
      .ok () ∧
    ("Build failed because distDir is empty: \"" ++ basenameStr "./build/web"
        ++ "\"." ++ validateInfo false false) ≠
      ("No output directory named \"" ++ basenameStr "./build/web"
        ++ "\" found." ++ validateInfo false false) := by
  refine ⟨?_, ?_, ?_, ?_, ?_⟩
  · exact ((validateDistDir_contract.1 ⟨false, false, 0⟩ "./build/web" false
      ⟨true, none, none⟩).1) rfl
  · exact ((validateDistDir_contract.1 ⟨true, false, 3⟩ "./build/web" false
      ⟨false, none, none⟩).2.1) rfl rfl
  · exact ((validateDistDir_contract.1 ⟨true, true, 0⟩ "./build/web" false
      ⟨false, none, none⟩).2.2.1) rfl rfl rfl
  · exact ((validateDistDir_contract.1 ⟨true, true, 3⟩ "./build/web" false
      ⟨false, none, none⟩).2.2.2) rfl rfl (by decide)
  · decide

/-- Helper: if every probe before `s + d` is unreachable and within the
deadline, and the probe at `s + d` is reachable, the loop started at `s`
succeeds at `s + d`. -/
theorem checkForPortAux_succeeds (r : Nat → Bool) (port timeout : Nat) :
    ∀ (d s : Nat),
      (∀ m, s ≤ m → m < s + d → r m = false ∧ 100 * m ≤ timeout) →
      r (s + d) = true →
      checkForPortAux r port timeout s = .ok (s + d) := by
  intro d
  induction d with
  | zero =>
    intro s _ hr
    rw [checkForPortAux]
    simp only [Nat.add_zero] at hr
    simp [hr]
  | succ d ih =>
    intro s hpre hr
    have h0 : r s = false ∧ 100 * s ≤ timeout := hpre s le_rfl (by omega)
    rw [checkForPortAux]
    rw [h0.1]
    have hng : ¬ (100 * s > timeout) := by omega
    simp only [Bool.false_eq_true, if_false, dif_neg hng]
    have hpre2 : ∀ m, s + 1 ≤ m → m < s + 1 + d → r m = false ∧ 100 * m ≤ timeout :=
      fun m h1 h2 => hpre m (by omega) (by omega)
    have hr2 : r (s + 1 + d) = true := by
      rw [show s + 1 + d = s + (d + 1) by omega]; exact hr
    have := ih (s + 1) hpre2 hr2
    rw [show s + 1 + d = s + (d + 1) by omega] at this
    exact this

/-- Helper: on a never-reachable port the loop throws the timeout error at
elapsed time `timeoutElapsed timeout`. -/
theorem checkForPortAux_never (r : Nat → Bool) (hr : ∀ m, r m = false)
    (port timeout : Nat) :
    ∀ (k n : Nat), timeout / 100 + 1 - n ≤ k → n ≤ timeout / 100 + 1 →
      checkForPortAux r port timeout n =
        .timedOut port timeout (timeoutElapsed timeout) := by
  intro k
  induction k with
  | zero =>
    intro n h1 h2
    have hn : n = timeout / 100 + 1 := by omega
    subst hn
    have hgt : 100 * (timeout / 100 + 1) > timeout := by omega
    rw [checkForPortAux, hr _]
    simp only [Bool.false_eq_true, if_false, dif_pos hgt]
    simp [timeoutElapsed]
  | succ k ih =>
    intro n h1 h2
    by_cases hn : n = timeout / 100 + 1
    · subst hn
      have hgt : 100 * (timeout / 100 + 1) > timeout := by omega
      rw [checkForPortAux, hr _]
      simp only [Bool.false_eq_true, if_false, dif_pos hgt]
      simp [timeoutElapsed]
    · have hle : ¬ (100 * n > timeout) := by omega
      rw [checkForPortAux, hr n]
      simp only [Bool.false_eq_true, if_false, dif_neg hle]
      exact ih (n + 1) (by omega) (by omega)

/-- Claim C6: the readiness poller returns success as soon as a probe
finds the port reachable (given every earlier probe was unreachable and
within the deadline); on a never-reachable port it terminates with a
timeout error naming the port and the duration, never failing at or
before the deadline and failing no later than one 100 ms poll interval
past it. -/
theorem checkForPort_poll_contract :
    (∀ (r : Nat → Bool) (port timeout n : Nat),
      (∀ m, m < n → r m = false ∧ 100 * m ≤ timeout) → r n = true →
      checkForPort r port timeout = .ok n) ∧
    (∀ (r : Nat → Bool) (port timeout : Nat), (∀ m, r m = false) →
      checkForPort r port timeout =
        .timedOut port timeout (timeoutElapsed timeout) ∧
      timeout < timeoutElapsed timeout ∧
      timeoutElapsed timeout ≤ timeout + 100) := by
  constructor
  · intro r port timeout n hpre hr
    have := checkForPortAux_succeeds r port timeout n 0
      (fun m h1 h2 => hpre m (by omega)) (by simpa using hr)
    simpa [checkForPort] using this
  · intro r port timeout hr
    refine ⟨?_, by simp [timeoutElapsed]; omega, by simp [timeoutElapsed]; omega⟩
    exact checkForPortAux_never r hr port timeout (timeout / 100 + 1) 0
      (by omega) (by omega)

/-- Witness for C6: a port reachable at probe index 2 succeeds at probe 2,
and a never-reachable port with a 250 ms deadline times out naming port
3000 and duration 250, at an elapsed time past 250 and at most 350 ms. -/
theorem checkForPort_poll_contract_witness :
    checkForPort reachableAtTwo 3000 250 = .ok 2 ∧
    (checkForPort neverReachable 3000 250 =
      .timedOut 3000 250 (timeoutElapsed 250) ∧
    250 < timeoutElapsed 250 ∧ timeoutElapsed 250 ≤ 250 + 100) := by
  constructor
  · exact checkForPort_poll_contract.1 reachableAtTwo 3000 250 2
      (by decide) (by decide)
  · exact checkForPort_poll_contract.2 neverReachable 3000 250 (fun m => rfl)

/-- Updating a key makes it visible to lookup. -/
theorem lookupA_setA_self {α : Type} (l : List (String × α)) (k : String) (v : α) :
    lookupA (setA l k v) k = some v := by
  induction l with
  | nil => simp [setA, lookupA]
  | cons kv rest ih =>
    by_cases h : kv.1 = k <;>
      simp [setA, lookupA, h, ih]

/-- Updating one key leaves lookups of other keys unchanged. -/
theorem lookupA_setA_other {α : Type} (l : List (String × α)) (k k' : String)
    (v : α) (h : k' ≠ k) : lookupA (setA l k v) k' = lookupA l k' := by
  induction l with
  | nil =>
    simp only [setA, lookupA]
    rw [if_neg (fun hh => h hh.symm)]
  | cons kv rest ih =>
    obtain ⟨a, b⟩ := kv
    by_cases h1 : a = k
    · subst h1
      simp only [setA, if_pos rfl, lookupA]
      rw [if_neg (fun hh => h hh.symm), if_neg (fun hh => h hh.symm)]
    · simp only [setA, if_neg h1, lookupA]
      rw [ih]

/-- Claim C1: the tracer read hook is a three-state cache lookup.  A
source-cache hit returns the cached bytes with no filesystem access and
no state change; a confirmed-absent entry returns "not found" (`none`)
with no filesystem access; an unset path performs one real read, which
on success populates both caches and returns the bytes, on `ENOENT` or
`EISDIR` records confirmed-absent and returns "not found", and on any
other I/O error propagates it as a fatal failure; and a lookup that
returned "not found" leaves a state in which a second lookup of the same
path performs zero filesystem accesses. -/
theorem readFileHook_cache_contract (fs : String → ReadOutcome)
    (rel : String → String) (st : TraceState) (p : String) :
    (∀ d, lookupA st.sourceCache (rel p) = some (some d) →
      readFileHook fs rel st p = .ok (some d, st, 0)) ∧
    (lookupA st.sourceCache (rel p) = some none →
      readFileHook fs rel st p = .ok (none, st, 0)) ∧
    (∀ d m, lookupA st.sourceCache (rel p) = none → fs p = .found d m →
      readFileHook fs rel st p =
        .ok (some d,
          ⟨setA st.sourceCache (rel p) (some d),
           setA st.fsCache (rel p) (.blob d (some m))⟩, 1) ∧
      lookupA (setA st.sourceCache (rel p) (some d)) (rel p) = some (some d) ∧
      lookupA (setA st.fsCache (rel p) (.blob d (some m))) (rel p) =
        some (.blob d (some m))) ∧
    (lookupA st.sourceCache (rel p) = none →
      (fs p = .enoent ∨ fs p = .eisdir) →
      readFileHook fs rel st p =
        .ok (none, ⟨setA st.sourceCache (rel p) none, st.fsCache⟩, 1) ∧
      lookupA (setA st.sourceCache (rel p) none) (rel p) = some none) ∧
    (∀ msg, lookupA st.sourceCache (rel p) = none → fs p = .ioError msg →
      readFileHook fs rel st p = .error msg) ∧
    (∀ st2 k, readFileHook fs rel st p = .ok (none, st2, k) →
      readFileHook fs rel st2 p = .ok (none, st2, 0)) := by
  refine ⟨?_, ?_, ?_, ?_, ?_, ?_⟩
  · intro d h; simp [readFileHook, h]
  · intro h; simp [readFileHook, h]
  · intro d m h hf
    refine ⟨by simp [readFileHook, h, hf], lookupA_setA_self _ _ _,
      lookupA_setA_self _ _ _⟩
  · intro h hf
    rcases hf with hf | hf <;>
      exact ⟨by simp [readFileHook, h, hf], lookupA_setA_self _ _ _⟩
  · intro msg h hf; simp [readFileHook, h, hf]
  · intro st2 k h
    rcases hsc : lookupA st.sourceCache (rel p) with _ | v
    · rcases hf : fs p with ⟨d, m⟩ | _ | _ | msg
      · simp [readFileHook, hsc, hf] at h
      · simp [readFileHook, hsc, hf] at h
        obtain ⟨hst, hk⟩ := h
        subst hst
        simp [readFileHook, lookupA_setA_self]
      · simp [readFileHook, hsc, hf] at h
        obtain ⟨hst, hk⟩ := h
        subst hst
        simp [readFileHook, lookupA_setA_self]
      · simp [readFileHook, hsc, hf] at h
    · rcases v with _ | d
      · simp [readFileHook, hsc] at h
        obtain ⟨hst, hk⟩ := h
        subst hst
        simp [readFileHook, hsc]
      · simp [readFileHook, hsc] at h

/-- Witness for C1 over a concrete four-path filesystem: a cached hit, a
confirmed-absent hit, a fresh successful read, a fresh missing read, a
fatal I/O error, and the no-re-read of a path that already returned "not
found". -/
theorem readFileHook_cache_contract_witness :
    readFileHook fsW relW ⟨[("c.js", some "C")], []⟩ "c.js" =
      .ok (some "C", ⟨[("c.js", some "C")], []⟩, 0) ∧
    readFileHook fsW relW ⟨[("gone.js", none)], []⟩ "gone.js" =
      .ok (none, ⟨[("gone.js", none)], []⟩, 0) ∧
    readFileHook fsW relW ⟨[], []⟩ "a.js" =
      .ok (some "A",
        ⟨setA [] "a.js" (some "A"), setA [] "a.js" (.blob "A" (some 420))⟩, 1) ∧
    readFileHook fsW relW ⟨[], []⟩ "missing.js" =
      .ok (none, ⟨setA [] "missing.js" none, []⟩, 1) ∧
    readFileHook fsW relW ⟨[], []⟩ "bad" = .error "EACCES" ∧
    readFileHook fsW relW ⟨setA [] "missing.js" none, []⟩ "missing.js" =
      .ok (none, ⟨setA [] "missing.js" none, []⟩, 0) := by
  refine ⟨?_, ?_, ?_, ?_, ?_, ?_⟩
  · exact (readFileHook_cache_contract fsW relW ⟨[("c.js", some "C")], []⟩
      "c.js").1 "C" (by decide)
  · exact (readFileHook_cache_contract fsW relW ⟨[("gone.js", none)], []⟩
      "gone.js").2.1 (by decide)
  · exact ((readFileHook_cache_contract fsW relW ⟨[], []⟩ "a.js").2.2.1
      "A" 420 rfl (by decide)).1
  · exact ((readFileHook_cache_contract fsW relW ⟨[], []⟩ "missing.js").2.2.2.1
      rfl (Or.inl (by decide))).1
  · exact (readFileHook_cache_contract fsW relW ⟨[], []⟩ "bad").2.2.2.2.1
      "EACCES" rfl (by decide)
  · exact (readFileHook_cache_contract fsW relW ⟨[], []⟩ "missing.js").2.2.2.2.2
      ⟨setA [] "missing.js" none, []⟩ 1
      (((readFileHook_cache_contract fsW relW ⟨[], []⟩ "missing.js").2.2.2.1
        rfl (Or.inl (by decide))).1)

/-- An element stays in a list after a unique insertion. -/
theorem insertUnique_mem_of_mem (l : List String) (x y : String) (h : x ∈ l) :
    x ∈ insertUnique l y := by
  unfold insertUnique
  by_cases hy : y ∈ l <;> simp [hy, h]

/-- The inserted element is in the list after a unique insertion. -/
theorem insertUnique_mem_self (l : List String) (x : String) :
    x ∈ insertUnique l x := by
  unfold insertUnique
  by_cases h : x ∈ l <;> simp [h]

/-- The include loop preserves the included-file invariant. -/
theorem runIncludeFiles_preserves (env : CompileEnv) (f : String) :
    ∀ (l : List String) (st : TraceState) (inputs : List String)
      (st' : TraceState) (inputs' : List String),
      runIncludeFiles env l st inputs = .ok (st', inputs') →
      IncludedOK env f st → IncludedOK env f st' := by
  intro l
  induction l with
  | nil =>
    intro st inputs st' inputs' hok hinv
    simp [runIncludeFiles] at hok
    obtain ⟨h1, h2⟩ := hok
    subst h1
    exact hinv
  | cons g rest ih =>
    intro st inputs st' inputs' hok hinv
    rcases hg : env.fs (env.res g) with ⟨data, mode⟩ | _ | _ | msg
    · simp only [runIncludeFiles, hg] at hok
      refine ih _ _ _ _ hok ?_
      by_cases hgf : g = f
      · subst hgf
        exact ⟨lookupA_setA_self _ _ _,
          by simp [lookupA_setA_self, fsData, hg],
          by simp [fsData, hg]⟩
      · have hfg : f ≠ g := fun hh => hgf hh.symm
        obtain ⟨i1, i2, i3⟩ := hinv
        exact ⟨(lookupA_setA_other _ _ _ _ hfg).trans i1,
          (lookupA_setA_other _ _ _ _ hfg).trans i2, i3⟩
    · simp [runIncludeFiles, hg] at hok
    · simp [runIncludeFiles, hg] at hok
    · simp [runIncludeFiles, hg] at hok

/-- Every file in the processed include list satisfies the included-file
invariant afterward. -/
theorem runIncludeFiles_establishes (env : CompileEnv) (f : String) :
    ∀ (l : List String) (st : TraceState) (inputs : List String)
      (st' : TraceState) (inputs' : List String),
      runIncludeFiles env l st inputs = .ok (st', inputs') →
      f ∈ l → IncludedOK env f st' := by
  intro l
  induction l with
  | nil => intro st inputs st' inputs' hok hf; simp at hf
  | cons g rest ih =>
    intro st inputs st' inputs' hok hfm
    rcases hg : env.fs (env.res g) with ⟨data, mode⟩ | _ | _ | msg
    · simp only [runIncludeFiles, hg] at hok
      rcases List.mem_cons.mp hfm with hfg | hfr
      · subst hfg
        refine runIncludeFiles_preserves env f rest _ _ _ _ hok ?_
        exact ⟨lookupA_setA_self _ _ _,
          by simp [lookupA_setA_self, fsData, hg],
          by simp [fsData, hg]⟩
      · exact ih _ _ _ _ hok hfr
    · simp [runIncludeFiles, hg] at hok
    · simp [runIncludeFiles, hg] at hok
    · simp [runIncludeFiles, hg] at hok

/-- The include loop only grows the entry set. -/
theorem runIncludeFiles_mono_inputs (env : CompileEnv) (x : String) :
    ∀ (l : List String) (st : TraceState) (inputs : List String)
      (st' : TraceState) (inputs' : List String),
      runIncludeFiles env l st inputs = .ok (st', inputs') →
      x ∈ inputs → x ∈ inputs' := by
  intro l
  induction l with
  | nil =>
    intro st inputs st' inputs' hok hx
    simp [runIncludeFiles] at hok
    obtain ⟨_, h2⟩ := hok
    subst h2
    exact hx
  | cons g rest ih =>
    intro st inputs st' inputs' hok hx
    rcases hg : env.fs (env.res g) with ⟨data, mode⟩ | _ | _ | msg
    · simp only [runIncludeFiles, hg] at hok
      exact ih _ _ _ _ hok (insertUnique_mem_of_mem _ _ _ hx)
    · simp [runIncludeFiles, hg] at hok
    · simp [runIncludeFiles, hg] at hok
    · simp [runIncludeFiles, hg] at hok

/-- Every processed included file has its resolved path in the entry
set afterward. -/
theorem runIncludeFiles_mem_inputs (env : CompileEnv) (f : String) :
    ∀ (l : List String) (st : TraceState) (inputs : List String)
      (st' : TraceState) (inputs' : List String),
      runIncludeFiles env l st inputs = .ok (st', inputs') →
      f ∈ l → env.res f ∈ inputs' := by
  intro l
  induction l with
  | nil => intro st inputs st' inputs' hok hf; simp at hf
  | cons g rest ih =>
    intro st inputs st' inputs' hok hfm
    rcases hg : env.fs (env.res g) with ⟨data, mode⟩ | _ | _ | msg
    · simp only [runIncludeFiles, hg] at hok
      rcases List.mem_cons.mp hfm with hfg | hfr
      · subst hfg
        exact runIncludeFiles_mono_inputs env _ rest _ _ _ _ hok
          (insertUnique_mem_self _ _)
      · exact ih _ _ _ _ hok hfr
    · simp [runIncludeFiles, hg] at hok
    · simp [runIncludeFiles, hg] at hok
    · simp [runIncludeFiles, hg] at hok

/-- The pattern loop preserves the included-file invariant. -/
theorem runPatterns_preserves (env : CompileEnv) (f : String) :
    ∀ (pats : List String) (st : TraceState) (inputs : List String)
      (st' : TraceState) (inputs' : List String),
      runPatterns env pats st inputs = .ok (st', inputs') →
      IncludedOK env f st → IncludedOK env f st' := by
  intro pats
  induction pats with
  | nil =>
    intro st inputs st' inputs' hok hinv
    simp [runPatterns] at hok
    obtain ⟨h1, _⟩ := hok
    subst h1
    exact hinv
  | cons p ps ih =>
    intro st inputs st' inputs' hok hinv
    cases hri : runIncludeFiles env (env.globF p) st inputs with
    | error e => simp [runPatterns, hri] at hok
    | ok v =>
      obtain ⟨st2, in2⟩ := v
      simp only [runPatterns, hri] at hok
      exact ih _ _ _ _ hok
        (runIncludeFiles_preserves env f _ _ _ _ _ hri hinv)

/-- Any file matched by any pattern of the include list satisfies the
included-file invariant after the pattern loop. -/
theorem runPatterns_establishes (env : CompileEnv) (pat f : String)
    (hf : f ∈ env.globF pat) :
    ∀ (pats : List String) (st : TraceState) (inputs : List String)
      (st' : TraceState) (inputs' : List String),
      runPatterns env pats st inputs = .ok (st', inputs') →
      pat ∈ pats → IncludedOK env f st' := by
  intro pats
  induction pats with
  | nil => intro st inputs st' inputs' hok hp; simp at hp
  | cons p ps ih =>
    intro st inputs st' inputs' hok hpm
    cases hri : runIncludeFiles env (env.globF p) st inputs with
    | error e => simp [runPatterns, hri] at hok
    | ok v =>
      obtain ⟨st2, in2⟩ := v
      simp only [runPatterns, hri] at hok
      rcases List.mem_cons.mp hpm with hpp | hpr
      · subst hpp
        exact runPatterns_preserves env f ps _ _ _ _ hok
          (runIncludeFiles_establishes env f _ _ _ _ _ hri hf)
      · exact ih _ _ _ _ hok hpr

/-- The pattern loop only grows the entry set. -/
theorem runPatterns_mono_inputs (env : CompileEnv) (x : String) :
    ∀ (pats : List String) (st : TraceState) (inputs : List String)
      (st' : TraceState) (inputs' : List String),
      runPatterns env pats st inputs = .ok (st', inputs') →
      x ∈ inputs → x ∈ inputs' := by
  intro pats
  induction pats with
  | nil =>
    intro st inputs st' inputs' hok hx
    simp [runPatterns] at hok
    obtain ⟨_, h2⟩ := hok
    subst h2
    exact hx
  | cons p ps ih =>
    intro st inputs st' inputs' hok hx
    cases hri : runIncludeFiles env (env.globF p) st inputs with
    | error e => simp [runPatterns, hri] at hok
    | ok v =>
      obtain ⟨st2, in2⟩ := v
      simp only [runPatterns, hri] at hok
      exact ih _ _ _ _ hok (runIncludeFiles_mono_inputs env x _ _ _ _ _ hri hx)

/-- Any file matched by any pattern of the include list has its resolved
path in the entry set after the pattern loop. -/
theorem runPatterns_mem_inputs (env : CompileEnv) (pat f : String)
    (hf : f ∈ env.globF pat) :
    ∀ (pats : List String) (st : TraceState) (inputs : List String)
      (st' : TraceState) (inputs' : List String),
      runPatterns env pats st inputs = .ok (st', inputs') →
      pat ∈ pats → env.res f ∈ inputs' := by
  intro pats
  induction pats with
  | nil => intro st inputs st' inputs' hok hp; simp at hp
  | cons p ps ih =>
    intro st inputs st' inputs' hok hpm
    cases hri : runIncludeFiles env (env.globF p) st inputs with
    | error e => simp [runPatterns, hri] at hok
    | ok v =>
      obtain ⟨st2, in2⟩ := v
      simp only [runPatterns, hri] at hok
      rcases List.mem_cons.mp hpm with hpp | hpr
      · subst hpp
        exact runPatterns_mono_inputs env _ ps _ _ _ _ hok
          (runIncludeFiles_mem_inputs env f _ _ _ _ _ hri hf)
      · exact ih _ _ _ _ hok hpr

/-- One read-hook call preserves every existing source-cache binding and
the filesystem-cache binding of any path already bound in the source
cache. -/
theorem readFileHook_preserves_assoc (fs : String → ReadOutcome)
    (rel : String → String) (st : TraceState) (p : String)
    (r : Option String) (st2 : TraceState) (k : Nat) (f : String)
    (v : Option String)
    (hv : lookupA st.sourceCache f = some v)
    (hok : readFileHook fs rel st p = .ok (r, st2, k)) :
    lookupA st2.sourceCache f = some v ∧
    lookupA st2.fsCache f = lookupA st.fsCache f := by
  rcases hsc : lookupA st.sourceCache (rel p) with _ | w
  · have hne : f ≠ rel p := by
      intro hh
      rw [hh, hsc] at hv
      cases hv
    rcases hf : fs p with ⟨d, m⟩ | _ | _ | msg <;>
      simp [readFileHook, hsc, hf] at hok
    · obtain ⟨_, h2, _⟩ := hok
      subst h2
      exact ⟨(lookupA_setA_other _ _ _ _ hne).trans hv,
        lookupA_setA_other _ _ _ _ hne⟩
    · obtain ⟨_, h2, _⟩ := hok
      subst h2
      exact ⟨(lookupA_setA_other _ _ _ _ hne).trans hv, rfl⟩
    · obtain ⟨_, h2, _⟩ := hok
      subst h2
      exact ⟨(lookupA_setA_other _ _ _ _ hne).trans hv, rfl⟩
  · rcases w with _ | d <;> simp [readFileHook, hsc] at hok <;>
      obtain ⟨_, h2, _⟩ := hok <;> subst h2 <;> exact ⟨hv, rfl⟩

/-- The whole probe sequence of the walk preserves every existing
source-cache binding and the filesystem-cache binding of any path bound
in the source cache. -/
theorem runProbes_preserves (fs : String → ReadOutcome) (rel : String → String) :
    ∀ (probes : List String) (st st' : TraceState) (f : String)
      (v : Option String),
      lookupA st.sourceCache f = some v →
      runProbes fs rel st probes = .ok st' →
      lookupA st'.sourceCache f = some v ∧
      lookupA st'.fsCache f = lookupA st.fsCache f := by
  intro probes
  induction probes with
  | nil =>
    intro st st' f v hv hok
    simp [runProbes] at hok
    subst hok
    exact ⟨hv, rfl⟩
  | cons p ps ih =>
    intro st st' f v hv hok
    cases hh : readFileHook fs rel st p with
    | error e => simp [runProbes, hh] at hok
    | ok val =>
      obtain ⟨r, st2, k⟩ := val
      simp only [runProbes, hh] at hok
      obtain ⟨h1, h2⟩ := readFileHook_preserves_assoc fs rel st p r st2 k f v hv hh
      obtain ⟨g1, g2⟩ := ih st2 st' f v h1 hok
      exact ⟨g1, g2.trans h2⟩

/-- Paths outside the traced file list are not touched by the
output-assembly loop. -/
theorem prepareFilesLoop_stable (env : CompileEnv) (st : TraceState) :
    ∀ (l : List String) (acc out : Files) (f : String),
      f ∉ l → prepareFilesLoop env st acc l = .ok out →
      lookupA out f = lookupA acc f := by
  intro l
  induction l with
  | nil =>
    intro acc out f _ hok
    simp [prepareFilesLoop] at hok
    subst hok
    rfl
  | cons p ps ih =>
    intro acc out f hf hok
    have hfp : f ≠ p := fun hh => hf (hh ▸ List.mem_cons_self p ps)
    have hfs : f ∉ ps := fun hh => hf (List.mem_cons_of_mem p hh)
    cases hl : lookupA st.fsCache p with
    | some entry =>
      simp only [prepareFilesLoop, hl] at hok
      rw [ih _ out f hfs hok, lookupA_setA_other _ _ _ _ hfp]
    | none =>
      rcases hfsr : env.fs (env.res p) with ⟨data, mode⟩ | _ | _ | msg
      · simp only [prepareFilesLoop, hl, hfsr] at hok
        rw [ih _ out f hfs hok, lookupA_setA_other _ _ _ _ hfp]
      · simp [prepareFilesLoop, hl, hfsr] at hok
      · simp [prepareFilesLoop, hl, hfsr] at hok
      · simp [prepareFilesLoop, hl, hfsr] at hok

/-- A traced path with a filesystem-cache binding keeps exactly that
`File` in the assembled output map. -/
theorem prepareFilesLoop_mem (env : CompileEnv) (st : TraceState) :
    ∀ (l : List String) (acc out : Files) (f : String) (e : File),
      lookupA st.fsCache f = some e → f ∈ l →
      prepareFilesLoop env st acc l = .ok out →
      lookupA out f = some e := by
  intro l
  induction l with
  | nil => intro acc out f e _ hf; simp at hf
  | cons p ps ih =>
    intro acc out f e he hf hok
    by_cases hfs : f ∈ ps
    · cases hl : lookupA st.fsCache p with
      | some entry =>
        simp only [prepareFilesLoop, hl] at hok
        exact ih _ out f e he hfs hok
      | none =>
        rcases hfsr : env.fs (env.res p) with ⟨data, mode⟩ | _ | _ | msg
        · simp only [prepareFilesLoop, hl, hfsr] at hok
          exact ih _ out f e he hfs hok
        · simp [prepareFilesLoop, hl, hfsr] at hok
        · simp [prepareFilesLoop, hl, hfsr] at hok
        · simp [prepareFilesLoop, hl, hfsr] at hok
    · have hfp : f = p := by
        rcases List.mem_cons.mp hf with h | h
        · exact h
        · exact absurd h hfs
      subst hfp
      simp only [prepareFilesLoop, he] at hok
      rw [prepareFilesLoop_stable env st ps _ out f hfs hok, lookupA_setA_self]

/-- Claim C2: the traced closure is monotonic in include patterns.  For
every pattern of the include list and every file the glob resolves for
it, a successful `compile` registers the file as a `FileFsRef` in the
filesystem cache, caches its on-disk bytes in the source cache, adds its
resolved path to the entry set handed to the tracer, and keeps it (with
that same `FileFsRef`) in the resulting `preparedFiles` closure — even
when the module graph never references it (the module-graph hypotheses
say only that paths are workPath-roundtrippable and that every entry is
reachable in its own closure).  Because this holds for any include list
containing the pattern, extending the include list with further patterns
never removes such a file from the closure. -/
theorem compile_includes_in_closure (env : CompileEnv) (entry : String)
    (config : NowConfig) (pat f : String) (t : CompileTrace)
    (hrr : ∀ s, env.rel (env.res s) = s)
    (hreach : ∀ (l : List String) (x : String), x ∈ l → env.rel x ∈ env.traceOut l)
    (hpat : pat ∈ normalizeIncludes config.includeFiles)
    (hf : f ∈ env.globF pat)
    (hok : compileFull env entry config = .ok t) :
    lookupA t.includeState.fsCache f = some (.fsRef (env.res f)) ∧
    lookupA t.includeState.sourceCache f = some (fsData env f) ∧
    (fsData env f).isSome ∧
    env.res f ∈ t.entries ∧
    f ∈ t.fileList ∧
    lookupA t.preparedFiles f = some (.fsRef (env.res f)) := by
  unfold compileFull at hok
  cases hrp : runPatterns env (normalizeIncludes config.includeFiles)
      ⟨[], []⟩ [entry] with
  | error e => simp only [hrp] at hok; exact Except.noConfusion hok
  | ok v =>
    obtain ⟨st1, inputs⟩ := v
    simp only [hrp] at hok
    cases hpr : runProbes env.fs env.rel st1 env.probes with
    | error e => simp only [hpr] at hok; exact Except.noConfusion hok
    | ok st2 =>
      simp only [hpr] at hok
      cases hpf : prepareFilesLoop env st2 [] (env.traceOut inputs) with
      | error e => simp only [hpf] at hok; exact Except.noConfusion hok
      | ok files =>
        simp only [hpf] at hok
        injection hok with hok
        subst hok
        have hinc : IncludedOK env f st1 :=
          runPatterns_establishes env pat f hf _ _ _ _ _ hrp hpat
        have hresf : env.res f ∈ inputs :=
          runPatterns_mem_inputs env pat f hf _ _ _ _ _ hrp hpat
        have hfl : f ∈ env.traceOut inputs := by
          have := hreach inputs (env.res f) hresf
          rwa [hrr f] at this
        obtain ⟨ps1, ps2⟩ := runProbes_preserves env.fs env.rel env.probes
          st1 st2 f (fsData env f) hinc.2.1 hpr
        have hfc2 : lookupA st2.fsCache f = some (.fsRef (env.res f)) :=
          ps2.trans hinc.1
        exact ⟨hinc.1, hinc.2.1, hinc.2.2, hresf, hfl,
          prepareFilesLoop_mem env st2 _ _ files f _ hfc2 hfl hpf⟩

/-- Witness for C2: a concrete compile with include pattern `assets/**`
matching `assets/a.txt`, never referenced by the entrypoint module
graph, still lands in both caches, the entry set and the prepared
closure. -/
theorem compile_includes_in_closure_witness :
    lookupA tW.includeState.fsCache "assets/a.txt" =
      some (.fsRef (cenvW.res "assets/a.txt")) ∧
    lookupA tW.includeState.sourceCache "assets/a.txt" =
      some (fsData cenvW "assets/a.txt") ∧
    (fsData cenvW "assets/a.txt").isSome ∧
    cenvW.res "assets/a.txt" ∈ tW.entries ∧
    "assets/a.txt" ∈ tW.fileList ∧
    lookupA tW.preparedFiles "assets/a.txt" =
      some (.fsRef (cenvW.res "assets/a.txt")) :=
  compile_includes_in_closure cenvW "index.js" configW "assets/**"
    "assets/a.txt" tW (fun s => rfl) (fun l x h => h) (by decide) (by decide)
    (by rfl)

/-- A deleted key is gone from the registry. -/
theorem lookupA_eraseA {α : Type} (l : List (String × α)) (k : String) :
    lookupA (eraseA l k) k = none := by
  induction l with
  | nil => rfl
  | cons kv rest ih =>
    by_cases h : kv.1 = k
    · simpa [eraseA, List.filter_cons, h] using ih
    · simpa [eraseA, List.filter_cons, h, lookupA] using ih

/-- The port a successful dev-server call returns: the registered one if
present, else the freshly reserved one. -/
theorem ensureDevServer_port (env : BuildEnv) (dev : DevResult)
    (h : ensureDevServer env = .ok dev) :
    dev.port = (lookupA env.registry env.entrypoint).getD env.freshPort := by
  unfold ensureDevServer at h
  cases hl : lookupA env.registry env.entrypoint with
  | some p =>
    simp only [hl] at h
    injection h with h
    subst h
    rfl
  | none =>
    simp only [hl] at h
    cases hc : checkForPort env.reachable env.freshPort
        DEV_SERVER_PORT_BIND_TIMEOUT with
    | ok n =>
      simp only [hc] at h
      injection h with h
      subst h
      rfl
    | timedOut a b c =>
      simp only [hc] at h
      exact Except.noConfusion h

/-- Claim C7: the dev-server supervisor is idempotent per entrypoint.
A registered port is returned unchanged with no spawn and no state
change; an unregistered entrypoint (whose port check succeeds) reserves
the fresh port in the registry strictly before spawning (the ordered
event list is reservation first, spawn second), adds the child to the
child set, and the registry afterwards holds the port; the attached exit
handler removes the registry entry of its entrypoint; and a second call
after a spawning call returns the identical port and spawns nothing. -/
theorem ensureDevServer_contract (env : BuildEnv) :
    (∀ p, lookupA env.registry env.entrypoint = some p →
      ensureDevServer env = .ok ⟨p, env.registry, env.children, [], false⟩) ∧
    (∀ n, lookupA env.registry env.entrypoint = none →
      checkForPort env.reachable env.freshPort DEV_SERVER_PORT_BIND_TIMEOUT =
        .ok n →
      ensureDevServer env = .ok ⟨env.freshPort,
        setA env.registry env.entrypoint env.freshPort,
        env.children ++ [env.childPid],
        [DevEvent.reservePort env.entrypoint env.freshPort,
         DevEvent.spawnChild env.childPid env.freshPort], true⟩ ∧
      lookupA (setA env.registry env.entrypoint env.freshPort) env.entrypoint =
        some env.freshPort) ∧
    (∀ reg : List (String × Nat),
      lookupA (devExitHandler env.entrypoint reg) env.entrypoint = none) ∧
    (∀ dev : DevResult, ensureDevServer env = .ok dev → dev.spawned = true →
      ensureDevServer
          { env with
            registry := dev.registry
            children := dev.children } =
        .ok ⟨dev.port, dev.registry, dev.children, [], false⟩) := by
  refine ⟨?_, ?_, ?_, ?_⟩
  · intro p h
    unfold ensureDevServer
    simp only [h]
  · intro n h hc
    unfold ensureDevServer
    simp only [h, hc]
    exact ⟨trivial, lookupA_setA_self _ _ _⟩
  · intro reg
    exact lookupA_eraseA reg env.entrypoint
  · intro dev hok hsp
    unfold ensureDevServer at hok
    cases hl : lookupA env.registry env.entrypoint with
    | some p =>
      simp only [hl] at hok
      injection hok with hok
      subst hok
      exact Bool.noConfusion hsp
    | none =>
      simp only [hl] at hok
      cases hc : checkForPort env.reachable env.freshPort
          DEV_SERVER_PORT_BIND_TIMEOUT with
      | ok n =>
        simp only [hc] at hok
        injection hok with hok
        subst hok
        unfold ensureDevServer
        simp only [lookupA_setA_self]
      | timedOut a b c =>
        simp only [hc] at hok
        exact Except.noConfusion hok

/-- Witness for C7: reuse of registered port 3100, a fresh spawn on port
3200 with reservation before spawn, exit-handler deletion, and the
idempotent second call. -/
theorem ensureDevServer_contract_witness :
    ensureDevServer envC10 =
      .ok ⟨3100, envC10.registry, envC10.children, [], false⟩ ∧
    (ensureDevServer envC7 = .ok ⟨3200,
        setA envC7.registry envC7.entrypoint 3200, envC7.children ++ [7],
        [DevEvent.reservePort "app/package.json" 3200,
         DevEvent.spawnChild 7 3200], true⟩ ∧
      lookupA (setA envC7.registry envC7.entrypoint 3200) envC7.entrypoint =
        some 3200) ∧
    lookupA (devExitHandler "app/package.json" [("app/package.json", 5)])
      "app/package.json" = none ∧
    ensureDevServer
        { envC7 with
          registry := [("app/package.json", 3200)]
          children := [17, 7] } =
      .ok ⟨3200, [("app/package.json", 3200)], [17, 7], [], false⟩ := by
  have hport : checkForPort envC7.reachable envC7.freshPort
      DEV_SERVER_PORT_BIND_TIMEOUT = .ok 0 := by
    rw [checkForPort, checkForPortAux]
    simp [envC7, alwaysReachable]
  refine ⟨?_, ?_, ?_, ?_⟩
  · exact (ensureDevServer_contract envC10).1 3100 rfl
  · exact (ensureDevServer_contract envC7).2.1 0 rfl hport
  · exact (ensureDevServer_contract envC7).2.2.1 [("app/package.json", 5)]
  · exact (ensureDevServer_contract envC7).2.2.2
      ⟨3200, setA envC7.registry envC7.entrypoint 3200, envC7.children ++ [7],
       [DevEvent.reservePort "app/package.json" 3200,
        DevEvent.spawnChild 7 3200], true⟩
      (((ensureDevServer_contract envC7).2.1 0 rfl hport).1) rfl

/-- Counterexample to claim C4 as stated: with `meta.isDev = true` but no
`start` script in the manifest, `build` succeeds and emits the five
static-mode rules, not a single dev proxy rule. -/
theorem build_dev_counterexample :
    envC4.meta.isDev = true ∧
    buildRoutesOf envC4 = some staticBuildRoutes ∧
    staticBuildRoutes.length = 5 :=
  ⟨rfl, rfl, rfl⟩

/-- Claim C4 (amended: restricted to manifests declaring a `start`
script, which the dev branch of `build` requires): every dev-mode
invocation with a `start` script that returns successfully emits exactly
one route, the mount-relative source prefix plus catch-all destined to
`http://localhost:<boundPort>/$1` with no headers (the base rule has
none), and `getDevRoute` forwards base-rule headers whenever present. -/
theorem build_dev_single_route (env : BuildEnv) (r : BuildResult)
    (hdev : env.meta.isDev = true)
    (hstart : hasScript env.pkg "start" = true)
    (hok : buildRun env = .ok r) :
    r.routes = [getDevRoute (srcBaseOf env.mountpoint)
      ((lookupA env.registry env.entrypoint).getD env.freshPort) baseDevRoute] ∧
    getDevRoute (srcBaseOf env.mountpoint)
      ((lookupA env.registry env.entrypoint).getD env.freshPort) baseDevRoute =
      { src := some (srcBaseOf env.mountpoint ++ "/(.*)"),
        dest := some ("http://localhost:"
          ++ toString ((lookupA env.registry env.entrypoint).getD env.freshPort)
          ++ "/$1") } ∧
    (∀ (s : String) (p : Nat) (route : Route), route.headers.isSome = true →
      (getDevRoute s p route).headers = route.headers) := by
  have hcond : (env.meta.isDev && hasScript env.pkg "start") = true := by
    simp [hdev, hstart]
  unfold buildRun buildBranch at hok
  rw [hcond] at hok
  simp only [if_true] at hok
  cases hds : ensureDevServer env with
  | error e =>
    simp only [hds] at hok
    exact Except.noConfusion hok
  | ok dev =>
    simp only [hds] at hok
    cases hcm : compile env.cenv (renderPathOf env) env.config with
    | error e =>
      simp only [hcm] at hok
      exact Except.noConfusion hok
    | ok pw =>
      obtain ⟨pf, w⟩ := pw
      simp only [hcm] at hok
      injection hok with hok
      subst hok
      refine ⟨?_, rfl, ?_⟩
      · rw [ensureDevServer_port env dev hds]
      · intro s p route h
        unfold getDevRoute
        simp [h]

/-- Witness for the amended C4: the dev-mode environment with a `start`
script and registered port 3100 yields exactly the one proxy route. -/
theorem build_dev_single_route_witness :
    c10res.routes = [getDevRoute (srcBaseOf envC10.mountpoint)
      ((lookupA envC10.registry envC10.entrypoint).getD envC10.freshPort)
      baseDevRoute] ∧
    getDevRoute (srcBaseOf envC10.mountpoint)
      ((lookupA envC10.registry envC10.entrypoint).getD envC10.freshPort)
      baseDevRoute =
      { src := some (srcBaseOf envC10.mountpoint ++ "/(.*)"),
        dest := some ("http://localhost:"
          ++ toString
            ((lookupA envC10.registry envC10.entrypoint).getD envC10.freshPort)
          ++ "/$1") } ∧
    (∀ (s : String) (p : Nat) (route : Route), route.headers.isSome = true →
      (getDevRoute s p route).headers = route.headers) :=
  build_dev_single_route envC10 c10res rfl rfl rfl

/-- Claim C9: in build (non-dev) mode a successful `build` emits exactly
the five rules of the static-mode routing set, in order: the immutable
long-lived `/static/(.*)` pass-through, the uncached
`/service-worker.js` pass-through, the `/sockjs-node/(.*)` rewrite, the
filesystem handle-phase marker, and the `/(.*)` catch-all to
`/render.js`. -/
theorem build_static_routes_contract (env : BuildEnv) (r : BuildResult)
    (hdev : env.meta.isDev = false)
    (hok : buildRun env = .ok r) :
    r.routes =
      [{ src := some "/static/(.*)",
         headers := some [("cache-control", "s-maxage=31536000, immutable")],
         continueFlag := some true },
       { src := some "/service-worker.js",
         headers := some [("cache-control", "s-maxage=0")],
         continueFlag := some true },
       { src := some "/sockjs-node/(.*)", dest := some "/sockjs-node/$1" },
       { handle := some "filesystem" },
       { src := some "/(.*)", dest := some "/render.js" }] := by
  have hcond : (env.meta.isDev && hasScript env.pkg "start") = false := by
    simp [hdev]
  unfold buildRun buildBranch at hok
  rw [hcond] at hok
  simp only [Bool.false_eq_true, if_false] at hok
  cases hfs : hasScript env.pkg (getCommand env.pkg "build" env.config) with
  | false =>
    rw [hfs] at hok
    simp at hok
  | true =>
    rw [hfs] at hok
    simp only [Bool.not_true, Bool.false_eq_true, if_false] at hok
    cases hvd : validateDistDir env.dist (distPathOf env) env.meta.isDev
        env.config with
    | error e =>
      simp only [hvd] at hok
      exact Except.noConfusion hok
    | ok u =>
      simp only [hvd] at hok
      cases hcm : compile env.cenv (renderPathOf env) env.config with
      | error e =>
        simp only [hcm] at hok
        exact Except.noConfusion hok
      | ok pw =>
        obtain ⟨pf, w⟩ := pw
        simp only [hcm] at hok
        injection hok with hok
        subst hok
        rfl

/-- Witness for C9: the concrete non-dev build returns exactly the five
static-mode rules. -/
theorem build_static_routes_contract_witness :
    c9res.routes =
      [{ src := some "/static/(.*)",
         headers := some [("cache-control", "s-maxage=31536000, immutable")],
         continueFlag := some true },
       { src := some "/service-worker.js",
         headers := some [("cache-control", "s-maxage=0")],
         continueFlag := some true },
       { src := some "/sockjs-node/(.*)", dest := some "/sockjs-node/$1" },
       { handle := some "filesystem" },
       { src := some "/(.*)", dest := some "/render.js" }] :=
  build_static_routes_contract envC9 c9res rfl rfl

/-- Counterexample to claim C8 as stated: with no scripts at all and
`strict = false` (zero-config off), the resolved name is the platform
prefixed `now-build`, not `build`, and the thrown error names
`now-build`. -/
theorem build_missing_script_counterexample :
    getCommand envC8.pkg "build" envC8.config = "now-build" ∧
    "now-build" ≠ "build" ∧
    buildRun envC8 =
      .error "Missing required \"now-build\" script in \"app/package.json\"" :=
  ⟨rfl, by decide, rfl⟩

/-- Claim C8 (amended: with strict=false and neither script declared,
section 4.3 rule 4 resolves to the platform-prefixed `now-build`, and
the error names `now-build`, not `build`): with a declared `build`
script and no `now-build` script the resolved name is `build`; with
neither declared (and zero-config off) it is `now-build`; and whenever
the resolved script is not declared (`found = false`), `build` fails
with the missing-script error naming the resolved script verbatim. -/
theorem build_missing_script_contract :
    (∀ (pkg : PackageJson) (config : NowConfig),
      hasScript pkg "now-build" = false → hasScript pkg "build" = true →
      config.zeroConfig = false →
      getCommand pkg "build" config = "build") ∧
    (∀ (pkg : PackageJson) (config : NowConfig),
      hasScript pkg "now-build" = false → hasScript pkg "build" = false →
      config.zeroConfig = false →
      getCommand pkg "build" config = "now-build") ∧
    (∀ env : BuildEnv,
      (env.meta.isDev && hasScript env.pkg "start") = false →
      hasScript env.pkg (getCommand env.pkg "build" env.config) = false →
      buildRun env = .error ("Missing required \""
        ++ getCommand env.pkg "build" env.config ++ "\" script in \""
        ++ env.entrypoint ++ "\"")) := by
  refine ⟨?_, ?_, ?_⟩
  · intro pkg config h1 h2 h3
    unfold getCommand
    rw [show ("now-" ++ "build" : String) = "now-build" from rfl]
    simp [h1, h2, h3]
  · intro pkg config h1 h2 h3
    unfold getCommand
    rw [show ("now-" ++ "build" : String) = "now-build" from rfl]
    simp [h1, h2, h3]
  · intro env hcond hfs
    unfold buildRun buildBranch
    rw [hcond, hfs]
    simp

/-- Witness for the amended C8: with `\x7bbuild: webpack\x7d` and
strict=false the resolved script is `build`; with no scripts it is
`now-build`; and the concrete no-script build fails naming `now-build`. -/
theorem build_missing_script_contract_witness :
    getCommand ⟨some [("build", "webpack")]⟩ "build" ⟨false, none, none⟩ =
      "build" ∧
    getCommand envC8.pkg "build" envC8.config = "now-build" ∧
    buildRun envC8 = .error ("Missing required \""
      ++ getCommand envC8.pkg "build" envC8.config ++ "\" script in \""
      ++ envC8.entrypoint ++ "\"") := by
  refine ⟨?_, ?_, ?_⟩
  · exact build_missing_script_contract.1 ⟨some [("build", "webpack")]⟩
      ⟨false, none, none⟩ rfl rfl rfl
  · exact build_missing_script_contract.2.1 envC8.pkg envC8.config rfl rfl rfl
  · exact build_missing_script_contract.2.2 envC8 rfl rfl

/-- Companion files win any key collision in the merged lambda file
map. -/
theorem launcherFiles_precedence (env : BuildEnv) (pf : Files) (k : String)
    (v : File) (h : lookupA (launcherFilesDef env) k = some v) :
    lookupA (mergeA pf (launcherFilesDef env)) k = some v := by
  by_cases h1 : (LAUNCHER_FILENAME ++ ".js") = k
  · subst h1
    simp only [launcherFilesDef, lookupA, if_pos rfl] at h
    injection h with h
    subst h
    unfold mergeA launcherFilesDef
    simp only [List.foldl]
    rw [lookupA_setA_other _ _ _ _ (by decide),
      lookupA_setA_other _ _ _ _ (by decide), lookupA_setA_self]
  · by_cases h2 : (BRIDGE_FILENAME ++ ".js") = k
    · subst h2
      simp only [launcherFilesDef, lookupA, if_neg h1, if_pos rfl] at h
      injection h with h
      subst h
      unfold mergeA launcherFilesDef
      simp only [List.foldl]
      rw [lookupA_setA_other _ _ _ _ (by decide), lookupA_setA_self]
    · by_cases h3 : (HELPERS_FILENAME ++ ".js") = k
      · subst h3
        simp only [launcherFilesDef, lookupA, if_neg h1, if_neg h2,
          if_pos rfl] at h
        injection h with h
        subst h
        unfold mergeA launcherFilesDef
        simp only [List.foldl]
        rw [lookupA_setA_self]
      · simp only [launcherFilesDef, lookupA, if_neg h1, if_neg h2,
          if_neg h3] at h
        exact Option.noConfusion h

/-- Claim C10: every successful `build` — dev mode included — has traced
the render entrypoint (the `compile` call succeeded) and packaged the
traced files merged with the launcher, bridge and helpers companion
files (companions winning collisions) into a lambda stored under the
`render.js` key of the returned output map. -/
theorem build_packages_render_contract :
    (∀ (env : BuildEnv) (r : BuildResult), buildRun env = .ok r →
      exceptIsOk (compile env.cenv (renderPathOf env) env.config) = true) ∧
    (∀ (env : BuildEnv) (r : BuildResult) (pf : Files) (w : List String),
      buildRun env = .ok r →
      compile env.cenv (renderPathOf env) env.config = .ok (pf, w) →
      lookupA r.output "render.js" =
        some (.lam (createLambda (mergeA pf (launcherFilesDef env))
          (LAUNCHER_FILENAME ++ ".launcher")
          (if env.meta.isDev then "nodejs" else env.runtimeId))) ∧
      (∀ (k : String) (v : File), lookupA (launcherFilesDef env) k = some v →
        lookupA (mergeA pf (launcherFilesDef env)) k = some v)) := by
  constructor
  · intro env r hok
    unfold buildRun at hok
    cases hbr : buildBranch env with
    | error e =>
      simp only [hbr] at hok
      exact Except.noConfusion hok
    | ok tup =>
      obtain ⟨routes, output, reg, ch, ev⟩ := tup
      simp only [hbr] at hok
      cases hcm : compile env.cenv (renderPathOf env) env.config with
      | error e =>
        simp only [hcm] at hok
        exact Except.noConfusion hok
      | ok pw => rfl
  · intro env r pf w hok hcm
    unfold buildRun at hok
    cases hbr : buildBranch env with
    | error e =>
      simp only [hbr] at hok
      exact Except.noConfusion hok
    | ok tup =>
      obtain ⟨routes, output, reg, ch, ev⟩ := tup
      simp only [hbr, hcm] at hok
      injection hok with hok
      subst hok
      exact ⟨lookupA_setA_self _ _ _,
        fun k v hv => launcherFiles_precedence env pf k v hv⟩

/-- Witness for C10 at the concrete dev-mode environment: the compile
step succeeded, `render.js` holds the packaged lambda over the merged
file map with runtime `nodejs`, and the launcher key maps to the
launcher blob in the merged map. -/
theorem build_packages_render_contract_witness :
    exceptIsOk (compile envC10.cenv (renderPathOf envC10) envC10.config) =
      true ∧
    lookupA c10res.output "render.js" =
      some (.lam (createLambda (mergeA c10pf (launcherFilesDef envC10))
        (LAUNCHER_FILENAME ++ ".launcher")
        (if envC10.meta.isDev then "nodejs" else envC10.runtimeId))) ∧
    lookupA (mergeA c10pf (launcherFilesDef envC10))
      (LAUNCHER_FILENAME ++ ".js") = some (.blob "launcher-src" none) := by
  refine ⟨?_, ?_, ?_⟩
  · exact build_packages_render_contract.1 envC10 c10res rfl
  · exact (build_packages_render_contract.2 envC10 c10res c10pf c10w rfl rfl).1
  · exact (build_packages_render_contract.2 envC10 c10res c10pf c10w rfl rfl).2
      (LAUNCHER_FILENAME ++ ".js") (.blob "launcher-src" none) rfl

end StaticBuild
